import Mathlib

/-!
Verification of the Brongnal X3DH core against its specification.

The development shallowly embeds the Rust sources:
  * `src/src/main.rs` — the X3DH engine, `InMemoryServer` and `InMemoryClient`;
  * `src/native/server/src/sqlite_brongnal.rs` — the SQLite-backed directory;
  * `src/client/src/lib.rs` — the `MemoryClient` one-time-key store.

External cryptographic primitives (X25519, Ed25519, HKDF-SHA256, Blake2b-512,
ChaCha20-Poly1305) are modelled by concrete executable functions that keep the
algebraic structure the code relies on (Diffie-Hellman commutation, determinism,
ideal AEAD / signature behaviour) while remaining fully computable.
-/

set_option maxRecDepth 100000

namespace Brongnal

/-! ### Association lists

`HashMap` fields of the Rust structs are modelled as association lists with
unique keys; `ainsert` replaces any previous binding and `aremove` deletes the
binding, matching `HashMap::insert` / `HashMap::remove`. -/

def alookup {κ α : Type} [DecidableEq κ] : List (κ × α) → κ → Option α
  | [], _ => none
  | e :: rest, k => if e.1 = k then some e.2 else alookup rest k

def aremove {κ α : Type} [DecidableEq κ] : List (κ × α) → κ → List (κ × α)
  | [], _ => []
  | e :: rest, k => if e.1 = k then aremove rest k else e :: aremove rest k

def ainsert {κ α : Type} [DecidableEq κ] (m : List (κ × α)) (k : κ) (v : α) :
    List (κ × α) :=
  (k, v) :: aremove m k

theorem alookup_aremove_self {κ α : Type} [DecidableEq κ]
    (m : List (κ × α)) (k : κ) : alookup (aremove m k) k = none := by
  induction m with
  | nil => rfl
  | cons e rest ih =>
    by_cases h : e.1 = k
    · simpa [aremove, h] using ih
    · simp [aremove, alookup, h, ih]

theorem alookup_aremove_of_none {κ α : Type} [DecidableEq κ]
    (m : List (κ × α)) (k k' : κ) (h : alookup m k' = none) :
    alookup (aremove m k) k' = none := by
  induction m with
  | nil => rfl
  | cons e rest ih =>
    by_cases he : e.1 = k'
    · simp [alookup, he] at h
    · simp [alookup, he] at h
      by_cases hk : e.1 = k
      · simpa [aremove, hk] using ih h
      · simp [aremove, alookup, hk, he, ih h]

theorem alookup_ainsert_self {κ α : Type} [DecidableEq κ]
    (m : List (κ × α)) (k : κ) (v : α) : alookup (ainsert m k v) k = some v := by
  simp [ainsert, alookup]

/-! ### Crypto primitive models -/

/-- Modulus of the toy Diffie-Hellman group modelling Curve25519. -/
def dhP : Nat := 251

/-- Generator of the toy Diffie-Hellman group. -/
def dhG : Nat := 7

/-- Model of deriving an X25519 public key from a secret scalar
(`X25519PublicKey::from(&secret)`). -/
def xpub (sk : Nat) : Nat := dhG ^ sk % dhP

/-- Model of `secret.diffie_hellman(&pk)` — X25519 scalar multiplication. -/
def diffie_hellman (sk pk : Nat) : Nat := pk ^ sk % dhP

/-- Model of `SigningKey::verifying_key()`.  The Ed25519 public key is
identified with the X25519 public key of the same scalar, so that
`to_montgomery` below is the identity; this preserves the composition law
`to_montgomery (verifying_key sk) = xpub sk` that the code relies on when it
reuses `to_scalar_bytes` as an X25519 static secret. -/
def verifying_key (sk : Nat) : Nat := xpub sk

/-- Model of `VerifyingKey::to_montgomery().to_bytes()` used as an X25519
public key. -/
def to_montgomery (vk : Nat) : Nat := vk

/-- The Diffie-Hellman commutation law of the model: both sides of an exchange
compute the same shared value. -/
theorem diffie_hellman_comm (a b : Nat) :
    diffie_hellman a (xpub b) = diffie_hellman b (xpub a) := by
  unfold diffie_hellman xpub
  calc (dhG ^ b % dhP) ^ a % dhP
      = (dhG ^ b) ^ a % dhP := (Nat.pow_mod _ _ _).symm
    _ = dhG ^ (b * a) % dhP := by rw [← pow_mul]
    _ = dhG ^ (a * b) % dhP := by rw [Nat.mul_comm]
    _ = (dhG ^ a) ^ b % dhP := by rw [pow_mul]
    _ = (dhG ^ a % dhP) ^ b % dhP := Nat.pow_mod _ _ _

/-- Model of `to_bytes()` of a 32-byte value: little-endian byte decomposition, as for
`x25519_dalek` field elements and `ed25519_dalek` keys. -/
def toBytes32 (n : Nat) : List Nat :=
  (List.range 32).map (fun i => n / 256 ^ i % 256)

/-- Byte-mixing step used by the concrete models of the external hash
primitives (HKDF-SHA256 and Blake2b-512).  The models are deterministic
executable stand-ins; none of the claims depends on real hash values. -/
def mixByte (acc b : Nat) : Nat := (acc * 131 + b + 1) % 65521

/-- Model of 32 bytes of HKDF-SHA256 output for the given salt, input key
material and info string. -/
def hkdfSha256 (salt ikm info : List Nat) : List Nat :=
  let seed := (salt ++ ikm ++ info).foldl mixByte 17
  (List.range 32).map (fun i => (seed * (i + 3) + i) % 256)

/-- Model of 64 bytes of Blake2b-512 output (`Blake2b512::digest`). -/
def blake2b512 (input : List Nat) : List Nat :=
  let seed := input.foldl mixByte 29
  (List.range 64).map (fun i => (seed * (i + 5) + i * i) % 256)

/-- ASCII bytes of the HKDF info string, `b"Brongnal"`. -/
def brongnalInfo : List Nat := [66, 114, 111, 110, 103, 110, 97, 108]

/-- The domain-separation prefix the code actually builds:
`let f = [0xFF, 32];` — the TWO-element array containing 255 and 32
(`src/src/main.rs` line 44). -/
def kdfF : List Nat := [0xFF, 32]

/-- Function `kdf` from `src/src/main.rs` lines 42-50: HKDF-SHA256 with a 32-byte zero
salt, IKM `kdfF ++ km`, and info `"Brongnal"`. -/
def kdf (km : List Nat) : List Nat :=
  hkdfSha256 (List.replicate 32 0) (kdfF ++ km) brongnalInfo

/-- The KDF as the specification words it ("F = 32 bytes of 0xFF"), declared
only for comparison with the `kdf` translated from the source. -/
def kdf_spec (km : List Nat) : List Nat :=
  hkdfSha256 (List.replicate 32 0) (List.replicate 32 0xFF ++ km) brongnalInfo

/-! ### Signatures and bundles

Modelled from the spec: the module `bundle` (`verify_bundle`, `sign_bundle`,
`create_prekey_bundle`) is part of this repository but its file is not under
`src/`; §4.2 of the specification gives its contract.  An ideal signature is
the pair of the signer's verifying key and the signed content (the ordered
list of prekey publics); verification succeeds exactly on that pair. -/

structure Signature where
  signer : Nat
  content : List Nat
deriving DecidableEq, Repr

/-- Modelled from the spec: `sign_bundle` signs the concatenation of the
public prekeys in listed order under the identity signing key. -/
def sign_bundle (sk : Nat) (publics : List Nat) : Signature :=
  ⟨verifying_key sk, publics⟩

/-- Modelled from the spec: `verify_bundle(identity_key, publics, signature)`
succeeds iff the signature verifies over the concatenation of `publics` under
`identity_key`. -/
def verify_bundle (ik : Nat) (publics : List Nat) (sig : Signature) : Bool :=
  sig.signer = ik ∧ sig.content = publics

/-- Struct `SignedPreKey` from `src/src/main.rs` lines 26-30. -/
structure SignedPreKey where
  pre_key : Nat
  signature : Signature
deriving DecidableEq, Repr

/-- Struct `SignedPreKeys` from `src/src/main.rs` lines 32-36. -/
structure SignedPreKeys where
  pre_keys : List Nat
  signature : Signature
deriving DecidableEq, Repr

/-! ### AEAD model

Modelled from the spec: the module `aead` (`encrypt_data`, `decrypt_data`) is
part of this repository but its file is not under `src/`; §4.1 of the
specification gives its contract (ChaCha20-Poly1305; `aad` bound; decryption
fails on key or associated-data mismatch).  The ideal ciphertext records the
key and aad it was produced under; decryption succeeds exactly when both
match.  A `ChaCha20Poly1305` cipher value is identified with its 32-byte
key (`ChaCha20Poly1305::new_from_slice`). -/

structure Ciphertext where
  key : List Nat
  aad : List Nat
  msg : List Nat
deriving DecidableEq, Repr

/-- Modelled from the spec: AEAD encryption of `msg` with associated data
`aad` under the cipher keyed by `key`. -/
def encrypt_data (msg aad key : List Nat) : Ciphertext :=
  ⟨key, aad, msg⟩

/-- Modelled from the spec: AEAD decryption; fails with `DecryptFailed` unless
the key and the associated data match those used at encryption. -/
def decrypt_data (c : Ciphertext) (aad key : List Nat) : Except String (List Nat) :=
  if c.key = key ∧ c.aad = aad then .ok c.msg else .error "DecryptFailed"

/-! ### X3DH data types (`src/src/main.rs`) -/

/-- Struct `Message` from `src/src/main.rs` lines 224-229 (the InitialMessage). -/
structure Message where
  identity_key : Nat
  ephemeral_key : Nat
  otk : Option Nat
  ciphertext : Ciphertext
deriving DecidableEq, Repr

/-- Struct `PreKeyBundle` from `src/src/main.rs` lines 231-235. -/
structure PreKeyBundle where
  identity_key : Nat
  otk : Option Nat
  spk : SignedPreKey
deriving DecidableEq, Repr

/-- Struct `X3DHInitiateSendSkResult` from `src/src/main.rs` lines 52-55. -/
structure X3DHInitiateSendSkResult where
  ephemeral_key : Nat
  secret_key : List Nat
deriving DecidableEq, Repr

/-! ### Client state (`InMemoryClient` in `src/src/main.rs` lines 366-371,
`MemoryClient` in `src/client/src/lib.rs` lines 45-49) -/

structure InMemoryClient where
  identity_key : Nat
  pre_key : Nat
  one_time_pre_keys : List (Nat × Nat)
  session_keys : List (String × List Nat)
deriving DecidableEq, Repr

/-- Function `fetch_wipe_one_time_secret_key` — `HashMap::remove` with the error
context "Client failed to find pre key." (`src/src/main.rs` lines 373-382 and
identically `src/client/src/lib.rs` lines 68-75).  Returns the removed secret
and the updated map. -/
def fetch_wipe_one_time_secret_key (m : List (Nat × Nat)) (one_time_key : Nat) :
    Except String Nat × List (Nat × Nat) :=
  match alookup m one_time_key with
  | some sk => (.ok sk, aremove m one_time_key)
  | none => (.error "Client failed to find pre key.", m)

/-- Method `SessionKeyManager::set_session_key` (`src/src/main.rs` lines 397-399). -/
def set_session_key (client : InMemoryClient) (recipient_identity : String)
    (secret_key : List Nat) : InMemoryClient :=
  { client with
      session_keys := ainsert client.session_keys recipient_identity secret_key }

/-- Method `SessionKeyManager::get_encryption_key` (`src/src/main.rs` lines 401-413):
hash the stored session key with Blake2b-512, overwrite the stored key with
bytes 0..32 of the digest, and return a cipher keyed by bytes 32..64. -/
def get_encryption_key (client : InMemoryClient) (recipient_identity : String) :
    Except String (List Nat) × InMemoryClient :=
  match alookup client.session_keys recipient_identity with
  | some key =>
    let blake2b_mac := blake2b512 key
    (.ok (blake2b_mac.drop 32),
     { client with
         session_keys :=
           ainsert client.session_keys recipient_identity (blake2b_mac.take 32) })
  | none => (.error "SessionKeyManager does not contain peer", client)

/-- Method `SessionKeyManager::destroy_session_key` (`src/src/main.rs` lines 415-417). -/
def destroy_session_key (client : InMemoryClient) (peer : String) : InMemoryClient :=
  { client with session_keys := aremove client.session_keys peer }

/-! ### The X3DH engine (`src/src/main.rs`)

The fresh ephemeral secret (`X25519ReusableSecret::random()`) is passed in
explicitly to derandomise the embedding. -/

/-- Function `x3dh_initiate_send_sk` (`src/src/main.rs` lines 65-103).  NOTE: the
source binds the result of `verify_bundle` to `_` and continues regardless
(`let _ = verify_bundle(..).map_err(..);` — the error is discarded, there is
no `?`); the embedding mirrors that by computing the verification and
ignoring it. -/
def x3dh_initiate_send_sk (identity_key : Nat) (signed_pre_key : SignedPreKey)
    (one_time_key : Option Nat) (sender_key : Nat) (eph_secret : Nat) :
    Except String X3DHInitiateSendSkResult :=
  let _ := verify_bundle identity_key [signed_pre_key.pre_key] signed_pre_key.signature
  let dh1 := diffie_hellman sender_key signed_pre_key.pre_key
  let dh2 := diffie_hellman eph_secret (to_montgomery identity_key)
  let dh3 := diffie_hellman eph_secret signed_pre_key.pre_key
  let secret_key :=
    match one_time_key with
    | some otk =>
      kdf (toBytes32 dh1 ++ toBytes32 dh2 ++ toBytes32 dh3 ++
           toBytes32 (diffie_hellman eph_secret otk))
    | none => kdf (toBytes32 dh1 ++ toBytes32 dh2 ++ toBytes32 dh3)
  .ok ⟨xpub eph_secret, secret_key⟩

/-- Function `x3dh_initiate_recv_sk` (`src/src/main.rs` lines 150-182).  Takes and
returns the client's one-time-prekey map (the `OTKManager` capability); when
an OTK identifier is present, the matching secret is fetched and wiped. -/
def x3dh_initiate_recv_sk (otkMap : List (Nat × Nat)) (sender_identity_key : Nat)
    (ephemeral_key : Nat) (otk : Option Nat) (identity_key : Nat) (pre_key : Nat) :
    Except String (List Nat) × List (Nat × Nat) :=
  let dh1 := diffie_hellman pre_key (to_montgomery sender_identity_key)
  let dh2 := diffie_hellman identity_key ephemeral_key
  let dh3 := diffie_hellman pre_key ephemeral_key
  match otk with
  | some one_time_key =>
    match fetch_wipe_one_time_secret_key otkMap one_time_key with
    | (.ok otkSecret, otkMap1) =>
      (.ok (kdf (toBytes32 dh1 ++ toBytes32 dh2 ++ toBytes32 dh3 ++
                 toBytes32 (diffie_hellman otkSecret ephemeral_key))),
       otkMap1)
    | (.error e, otkMap1) => (.error e, otkMap1)
  | none => (.ok (kdf (toBytes32 dh1 ++ toBytes32 dh2 ++ toBytes32 dh3)), otkMap)

/-! ### Server state (`InMemoryServer`, `src/src/main.rs` lines 263-344) -/

structure InMemoryServer where
  identity_key : List (String × Nat)
  current_pre_key : List (String × SignedPreKey)
  one_time_pre_keys : List (String × List Nat)
  messages : List (String × List Message)
deriving DecidableEq, Repr

def InMemoryServer.empty : InMemoryServer := ⟨[], [], [], []⟩

/-- Method `InMemoryServer::set_spk` (`src/src/main.rs` lines 282-287): verify the
bundle, then `HashMap::insert` both the identity key and the signed prekey —
overwriting any previous entries. -/
def set_spk (s : InMemoryServer) (identity : String) (ik : Nat)
    (spk : SignedPreKey) : Except String Unit × InMemoryServer :=
  if verify_bundle ik [spk.pre_key] spk.signature then
    (.ok (),
     { s with
         identity_key := ainsert s.identity_key identity ik,
         current_pre_key := ainsert s.current_pre_key identity spk })
  else (.error "BundleVerifyFailed", s)

/-- Method `InMemoryServer::publish_otk_bundle` (`src/src/main.rs` lines 289-304):
verify, then append the new one-time prekeys to the identity's pool
(`try_insert` of an empty vector followed by `extend`). -/
def publish_otk_bundle (s : InMemoryServer) (identity : String) (ik : Nat)
    (otk_bundle : SignedPreKeys) : Except String Unit × InMemoryServer :=
  if verify_bundle ik otk_bundle.pre_keys otk_bundle.signature then
    (.ok (),
     { s with
         one_time_pre_keys :=
           ainsert s.one_time_pre_keys identity
             (((alookup s.one_time_pre_keys identity).getD []) ++
              otk_bundle.pre_keys) })
  else (.error "BundleVerifyFailed", s)

/-- Method `InMemoryServer::fetch_prekey_bundle` (`src/src/main.rs` lines 306-328).
The one-time key is taken with `Vec::pop`, i.e. from the BACK of the pool
(most recently added first); the embedding uses `getLast?` / `dropLast`
accordingly. -/
def fetch_prekey_bundle (s : InMemoryServer) (recipient_identity : String) :
    Except String PreKeyBundle × InMemoryServer :=
  match alookup s.identity_key recipient_identity with
  | none => (.error "Server has IK.", s)
  | some ik =>
    match alookup s.current_pre_key recipient_identity with
    | none => (.error "Server has spk.", s)
    | some spk =>
      match alookup s.one_time_pre_keys recipient_identity with
      | some otks =>
        (.ok ⟨ik, otks.getLast?, spk⟩,
         { s with
             one_time_pre_keys :=
               ainsert s.one_time_pre_keys recipient_identity otks.dropLast })
      | none => (.ok ⟨ik, none, spk⟩, s)

/-- Method `InMemoryServer::send_message` (`src/src/main.rs` lines 330-339): create
the recipient's queue if absent and push the message.  It NEVER fails — there
is no registration check. -/
def send_message (s : InMemoryServer) (recipient_identity : String)
    (message : Message) : Except String Unit × InMemoryServer :=
  (.ok (),
   { s with
       messages :=
         ainsert s.messages recipient_identity
           (((alookup s.messages recipient_identity).getD []) ++ [message]) })

/-- Method `InMemoryServer::retrieve_messages` (`src/src/main.rs` lines 341-343):
`HashMap::remove` the queue and return it (or the empty list). -/
def retrieve_messages (s : InMemoryServer) (identity : String) :
    List Message × InMemoryServer :=
  ((alookup s.messages identity).getD [],
   { s with messages := aremove s.messages identity })

/-- Function `x3dh_initiate_send` (`src/src/main.rs` lines 110-148): fetch the prekey
bundle (popping an OTK from the directory), derive the secret, record it in
the client session map, ratchet it via `get_encryption_key`, and AEAD-encrypt
with AD = sender verifying key bytes ∥ recipient identity key bytes.  Returns
the result together with the post-states of the server and the client. -/
def x3dh_initiate_send (server : InMemoryServer) (client : InMemoryClient)
    (recipient_identity : String) (sender_key : Nat) (message : List Nat)
    (eph_secret : Nat) :
    Except String Message × InMemoryServer × InMemoryClient :=
  match fetch_prekey_bundle server recipient_identity with
  | (.error e, server1) => (.error e, server1, client)
  | (.ok bundle, server1) =>
    match x3dh_initiate_send_sk bundle.identity_key bundle.spk bundle.otk
        sender_key eph_secret with
    | .error e => (.error e, server1, client)
    | .ok r =>
      let associated_data :=
        toBytes32 (verifying_key sender_key) ++ toBytes32 bundle.identity_key
      let client1 := set_session_key client recipient_identity r.secret_key
      match get_encryption_key client1 recipient_identity with
      | (.error e, client2) => (.error e, server1, client2)
      | (.ok encryption_key, client2) =>
        (.ok ⟨bundle.identity_key, r.ephemeral_key, bundle.otk,
              encrypt_data message associated_data encryption_key⟩,
         server1, client2)

/-- Function `x3dh_initiate_recv` (`src/src/main.rs` lines 184-222): derive the secret
(wiping the used OTK), record it in the session map, and decrypt with the
cipher keyed by the secret key itself and AD = sender verifying key bytes ∥
`identity_key.to_bytes()` — which for an `ed25519_dalek::SigningKey` is the
SECRET scalar bytes, not the public key.  On decryption failure the session
key for `sender` is destroyed and the error is returned. -/
def x3dh_initiate_recv (client : InMemoryClient) (sender : String)
    (sender_identity_key : Nat) (ephemeral_key : Nat) (one_time_key : Option Nat)
    (ciphertext : Ciphertext) : Except String (List Nat) × InMemoryClient :=
  match x3dh_initiate_recv_sk client.one_time_pre_keys sender_identity_key
      ephemeral_key one_time_key client.identity_key client.pre_key with
  | (.error e, otkMap1) => (.error e, { client with one_time_pre_keys := otkMap1 })
  | (.ok secret_key, otkMap1) =>
    let client1 := { client with one_time_pre_keys := otkMap1 }
    let associated_data :=
      toBytes32 sender_identity_key ++ toBytes32 client.identity_key
    let client2 := set_session_key client1 sender secret_key
    match decrypt_data ciphertext associated_data secret_key with
    | .ok msg => (.ok msg, client2)
    | .error e => (.error e, destroy_session_key client2 sender)

/-! ### SQLite-backed storage
(`src/native/server/src/sqlite_brongnal.rs`)

The three tables are modelled as lists of rows in insertion order.  Message
payloads and signed-prekey blobs are opaque (`Nat` ids / `SignedPreKey`). -/

structure UserRow where
  identity : String
  key : Nat
  current_pre_key : SignedPreKey
  creation_time : Nat
deriving DecidableEq, Repr

structure PreKeyRow where
  key : Nat
  user_identity : String
  creation_time : Nat
deriving DecidableEq, Repr

structure MessageRow where
  message : Nat
  user_identity : String
  creation_time : Nat
deriving DecidableEq, Repr

structure SqliteStorage where
  user : List UserRow
  pre_key : List PreKeyRow
  message : List MessageRow
deriving DecidableEq, Repr

/-- Method `SqliteStorage::add_user` (lines 67-83): a plain INSERT whose result is
bound to `_` — on a duplicate `identity` (the PRIMARY KEY) the constraint
error is swallowed and nothing changes; the function always returns `Ok`. -/
def add_user (s : SqliteStorage) (identity : String) (identity_key : Nat)
    (signed_pre_key : SignedPreKey) (now : Nat) : SqliteStorage :=
  if s.user.any (fun r => r.identity == identity) then s
  else { s with user := s.user ++ [⟨identity, identity_key, signed_pre_key, now⟩] }

/-- The stored identity key of a user, `SELECT key FROM user WHERE identity`. -/
def get_user_key (s : SqliteStorage) (identity : String) : Option Nat :=
  match s.user.find? (fun r => r.identity == identity) with
  | some r => some r.key
  | none => none

/-- The pre-key rows belonging to a user, in table (insertion) order. -/
def userRows (s : SqliteStorage) (u : String) : List PreKeyRow :=
  s.pre_key.filter (fun r => r.user_identity == u)

/-- The row selected by `ORDER BY creation_time LIMIT 1`: a row of minimal
`creation_time` (the first such row in table order on ties). -/
def minByTime : List PreKeyRow → Option PreKeyRow
  | [] => none
  | r :: rs =>
    match minByTime rs with
    | none => some r
    | some m => if r.creation_time ≤ m.creation_time then some r else some m

/-- Method `SqliteStorage::pop_one_time_key` (lines 147-160):
`DELETE ... WHERE key = (SELECT key FROM pre_key WHERE user_identity = ?1
ORDER BY creation_time LIMIT 1) RETURNING key`. -/
def pop_one_time_key (s : SqliteStorage) (identity : String) :
    Option Nat × SqliteStorage :=
  match minByTime (userRows s identity) with
  | none => (none, s)
  | some r =>
    (some r.key, { s with pre_key := s.pre_key.filter (fun q => q.key != r.key) })

/-- Iterated pops: `n` consecutive `pop_one_time_key` calls, collecting the returned keys
and threading the storage state. -/
def popN (u : String) : Nat → SqliteStorage → List Nat × SqliteStorage
  | 0, s => ([], s)
  | n + 1, s =>
    match pop_one_time_key s u with
    | (some k, s1) =>
      let p := popN u n s1
      (k :: p.1, p.2)
    | (none, s1) => ([], s1)

/-- Method `SqliteStorage::add_message` (lines 162-180): INSERT into `message`; any
failure (the FOREIGN KEY on `user_identity`, or the PRIMARY KEY on the
message blob) is mapped to `Status::not_found("user not found")` and nothing
is inserted. -/
def add_message (s : SqliteStorage) (recipient : String) (message : Nat)
    (now : Nat) : Except String Unit × SqliteStorage :=
  if s.user.any (fun r => r.identity == recipient) then
    if s.message.any (fun r => r.message == message) then
      (.error "user not found", s)
    else (.ok (), { s with message := s.message ++ [⟨message, recipient, now⟩] })
  else (.error "user not found", s)

/-- Method `SqliteStorage::get_messages` (lines 182-202):
`DELETE FROM message WHERE user_identity = ?1 RETURNING message` — return all
of the user's queued messages and delete their rows. -/
def get_messages (s : SqliteStorage) (identity : String) :
    List Nat × SqliteStorage :=
  ((s.message.filter (fun r => r.user_identity == identity)).map MessageRow.message,
   { s with message := s.message.filter (fun r => !(r.user_identity == identity)) })

/-! ### A concrete two-party scenario

Bob (identity scalar 3, signed prekey secret 5, one one-time key secret 11)
registers with the in-memory directory; Alice (identity scalar 2) sends the
plaintext "Hi" using ephemeral secret 9. -/

def bobSk : Nat := 3
def bobSpkSec : Nat := 5
def bobOtkSec : Nat := 11
def aliceSk : Nat := 2
def alicePreKeySec : Nat := 8
def ephSec : Nat := 9

def bobSpk : SignedPreKey := ⟨xpub bobSpkSec, sign_bundle bobSk [xpub bobSpkSec]⟩

def bobOtks : SignedPreKeys := ⟨[xpub bobOtkSec], sign_bundle bobSk [xpub bobOtkSec]⟩

def demoPlain : List Nat := [72, 105]

/-- The directory after Bob registers his signed prekey and one OTK. -/
def demoServer : InMemoryServer :=
  (publish_otk_bundle
    (set_spk InMemoryServer.empty "Bob" (verifying_key bobSk) bobSpk).2
    "Bob" (verifying_key bobSk) bobOtks).2

def aliceClient : InMemoryClient := ⟨aliceSk, alicePreKeySec, [], []⟩

def bobClient : InMemoryClient :=
  ⟨bobSk, bobSpkSec, [(xpub bobOtkSec, bobOtkSec)], []⟩

/-- Alice's send against the populated directory. -/
def demoSend : Except String Message × InMemoryServer × InMemoryClient :=
  x3dh_initiate_send demoServer aliceClient "Bob" aliceSk demoPlain ephSec

def demoMessage : Message :=
  match demoSend.1 with
  | .ok m => m
  | .error _ => ⟨0, 0, none, ⟨[], [], []⟩⟩

/-- Bob's receive of Alice's initial message. -/
def demoRecv : Except String (List Nat) × InMemoryClient :=
  x3dh_initiate_recv bobClient "Alice" (verifying_key aliceSk)
    demoMessage.ephemeral_key demoMessage.otk demoMessage.ciphertext

/-- The session key Alice's half derives in the demo scenario. -/
def demoSendSecret : List Nat :=
  match x3dh_initiate_send_sk (verifying_key bobSk) bobSpk (some (xpub bobOtkSec))
      aliceSk ephSec with
  | .ok r => r.secret_key
  | .error _ => []

/-- The session key Bob's half derives in the demo scenario. -/
def demoRecvSkPair : Except String (List Nat) × List (Nat × Nat) :=
  x3dh_initiate_recv_sk [(xpub bobOtkSec, bobOtkSec)] (verifying_key aliceSk)
    (xpub ephSec) (some (xpub bobOtkSec)) bobSk bobSpkSec

/-! ### Shared-secret agreement of the two halves (supporting result) -/

/-- The sender and receiver halves of the key derivation agree: with matching
inputs (recipient identity scalar `b`, prekey secret `spkSec`, one-time
secret `otkSec` held in the receiver's map, sender scalar `a`, ephemeral
secret `eph`), `x3dh_initiate_recv_sk` derives exactly the secret produced by
`x3dh_initiate_send_sk`. -/
theorem x3dh_sk_agreement (a b spkSec eph otkSec : Nat) (m : List (Nat × Nat))
    (hm : alookup m (xpub otkSec) = some otkSec) (r : X3DHInitiateSendSkResult)
    (hsend : x3dh_initiate_send_sk (verifying_key b)
        ⟨xpub spkSec, sign_bundle b [xpub spkSec]⟩ (some (xpub otkSec)) a eph = .ok r) :
    (x3dh_initiate_recv_sk m (verifying_key a) (xpub eph) (some (xpub otkSec))
        b spkSec).1 = .ok r.secret_key := by
  have hr : r.secret_key =
      kdf (toBytes32 (diffie_hellman a (xpub spkSec)) ++
           toBytes32 (diffie_hellman eph (to_montgomery (verifying_key b))) ++
           toBytes32 (diffie_hellman eph (xpub spkSec)) ++
           toBytes32 (diffie_hellman eph (xpub otkSec))) := by
    have := hsend
    simp only [x3dh_initiate_send_sk] at this
    cases this
    rfl
  simp only [x3dh_initiate_recv_sk, fetch_wipe_one_time_secret_key, hm, hr,
    to_montgomery, verifying_key]
  rw [diffie_hellman_comm spkSec a, diffie_hellman_comm b eph,
    diffie_hellman_comm spkSec eph, diffie_hellman_comm otkSec eph]

/-- C1.  The X3DH round-trip does NOT recover the plaintext: in the concrete
two-party scenario both halves derive the same session key
(`demoRecvSkPair.1 = .ok demoSendSecret`), and the sender's
`x3dh_initiate_send` succeeds, yet the receiver's `x3dh_initiate_recv` fails
with `DecryptFailed` instead of returning the plaintext — the sender
encrypted under the Blake2b-ratcheted key from `get_encryption_key` with AD
built from the recipient's public identity key, while the receiver decrypts
with the session key itself and AD built from its secret key bytes. -/
theorem c1_roundtrip_fails_at_demo :
    demoSend.1.isOk = true ∧
    demoRecvSkPair.1 = .ok demoSendSecret ∧
    demoRecv.1 = .error "DecryptFailed" :=
  ⟨rfl, rfl, rfl⟩

/-- C3.  The KDF's domain separator is NOT 32 bytes of 0xFF: the source
writes `let f = [0xFF, 32];` — the two-element array `[255, 32]` — where its
own comment (and the spec) require `[0xFF; 32]`.  Consequently `kdf` differs
from the spec-worded `kdf_spec` already at `KM = []`. -/
theorem c3_kdf_domain_separator_bug :
    kdfF = [0xFF, 32] ∧ kdfF.length = 2 ∧
    kdfF ≠ List.replicate 32 0xFF ∧ kdf [] ≠ kdf_spec [] := by
  refine ⟨rfl, rfl, by decide, by decide⟩

/-- A directory state holding a signed prekey whose signature is garbage
(scenario D of the spec: the SPK signature replaced by random bytes). -/
def c4Spk : SignedPreKey := ⟨xpub bobSpkSec, ⟨0, []⟩⟩

def c4Server : InMemoryServer :=
  ⟨[("Bob", verifying_key bobSk)], [("Bob", c4Spk)], [("Bob", [xpub bobOtkSec])], []⟩

def c4Send : Except String Message × InMemoryServer × InMemoryClient :=
  x3dh_initiate_send c4Server aliceClient "Bob" aliceSk demoPlain ephSec

/-- C4.  An invalid signed-prekey signature does NOT abort the send: the
signature fails verification, yet `x3dh_initiate_send` (whose
`x3dh_initiate_send_sk` discards the `verify_bundle` result) still returns an
`InitialMessage`, and the directory was mutated — Bob's one-time-key pool is
empty afterwards.  The claim (abort with `BundleVerifyFailed`, no message, no
directory mutation) describes the intended behaviour. -/
theorem c4_invalid_spk_signature_not_rejected :
    verify_bundle (verifying_key bobSk) [c4Spk.pre_key] c4Spk.signature = false ∧
    c4Send.1.isOk = true ∧
    alookup c4Send.2.1.one_time_pre_keys "Bob" = some [] :=
  ⟨by decide, rfl, rfl⟩

/-! ### One-time-key monotonicity -/

/-- The receiver key-derivation never re-adds a one-time key: a public key
absent from the OTK map is still absent afterwards. -/
theorem recv_sk_preserves_absent (m : List (Nat × Nat)) (sik ek : Nat)
    (otk : Option Nat) (ik prek pk : Nat) (h : alookup m pk = none) :
    alookup (x3dh_initiate_recv_sk m sik ek otk ik prek).2 pk = none := by
  cases otk with
  | none => simpa [x3dh_initiate_recv_sk] using h
  | some o =>
    simp only [x3dh_initiate_recv_sk, fetch_wipe_one_time_secret_key]
    cases ho : alookup m o with
    | none => simpa [ho] using h
    | some s => simpa [ho] using alookup_aremove_of_none m o pk h

/-- A full `x3dh_initiate_recv` never re-adds a one-time key either. -/
theorem recv_preserves_absent (c : InMemoryClient) (sender : String)
    (sik ek : Nat) (otk : Option Nat) (ct : Ciphertext) (pk : Nat)
    (h : alookup c.one_time_pre_keys pk = none) :
    alookup ((x3dh_initiate_recv c sender sik ek otk ct).2).one_time_pre_keys pk
      = none := by
  have hsk := recv_sk_preserves_absent c.one_time_pre_keys sik ek otk
    c.identity_key c.pre_key pk h
  unfold x3dh_initiate_recv
  rcases hres : x3dh_initiate_recv_sk c.one_time_pre_keys sik ek otk
      c.identity_key c.pre_key with ⟨r, m1⟩
  rw [hres] at hsk
  cases r with
  | error e => simpa using hsk
  | ok sk' =>
    simp only []
    cases decrypt_data ct (toBytes32 sik ++ toBytes32 c.identity_key) sk' with
    | ok msg => simpa [set_session_key] using hsk
    | error e => simpa [destroy_session_key, set_session_key] using hsk

/-- C2.  One-time keys are consumed at most once: if the client's OTK map
binds `pk` to `sk`, the first `fetch_wipe_one_time_secret_key pk` returns
`sk` and removes the binding; on any map lacking `pk` the call fails (the
"Client failed to find pre key." error realising `UnknownOneTimeKey`); and no
client operation (`set_session_key`, `get_encryption_key`,
`destroy_session_key`, `x3dh_initiate_recv`) ever re-adds a one-time key, so
every subsequent call across the client's lifetime keeps failing. -/
theorem c2_otk_consumed_at_most_once (m : List (Nat × Nat)) (pk sk : Nat)
    (h : alookup m pk = some sk) :
    (fetch_wipe_one_time_secret_key m pk).1 = .ok sk ∧
    alookup (fetch_wipe_one_time_secret_key m pk).2 pk = none ∧
    (fetch_wipe_one_time_secret_key (fetch_wipe_one_time_secret_key m pk).2 pk).1
      = .error "Client failed to find pre key." ∧
    (∀ m' : List (Nat × Nat), alookup m' pk = none →
      (fetch_wipe_one_time_secret_key m' pk).1
        = .error "Client failed to find pre key.") ∧
    (∀ (c : InMemoryClient) (peer : String) (k : List Nat),
      (set_session_key c peer k).one_time_pre_keys = c.one_time_pre_keys ∧
      ((get_encryption_key c peer).2).one_time_pre_keys = c.one_time_pre_keys ∧
      (destroy_session_key c peer).one_time_pre_keys = c.one_time_pre_keys) ∧
    (∀ (c : InMemoryClient) (sender : String) (sik ek : Nat) (otk : Option Nat)
        (ct : Ciphertext), alookup c.one_time_pre_keys pk = none →
      alookup ((x3dh_initiate_recv c sender sik ek otk ct).2).one_time_pre_keys pk
        = none) := by
  refine ⟨by simp [fetch_wipe_one_time_secret_key, h],
    by simp [fetch_wipe_one_time_secret_key, h, alookup_aremove_self],
    by simp [fetch_wipe_one_time_secret_key, h, alookup_aremove_self],
    fun m' h' => by simp [fetch_wipe_one_time_secret_key, h'],
    fun c peer k => ⟨rfl, ?_, rfl⟩,
    fun c sender sik ek otk ct h' => recv_preserves_absent c sender sik ek otk ct pk h'⟩
  unfold get_encryption_key
  cases alookup c.session_keys peer <;> rfl

/-- Witness for C2 at the concrete one-entry map `[(5, 7)]`. -/
theorem c2_otk_consumed_at_most_once_witness :
    alookup [((5 : Nat), (7 : Nat))] 5 = some 7 ∧
    ((fetch_wipe_one_time_secret_key [(5, 7)] 5).1 = .ok 7 ∧
     alookup (fetch_wipe_one_time_secret_key [(5, 7)] 5).2 5 = none ∧
     (fetch_wipe_one_time_secret_key (fetch_wipe_one_time_secret_key [(5, 7)] 5).2 5).1
       = .error "Client failed to find pre key." ∧
     (∀ m' : List (Nat × Nat), alookup m' 5 = none →
       (fetch_wipe_one_time_secret_key m' 5).1
         = .error "Client failed to find pre key.") ∧
     (∀ (c : InMemoryClient) (peer : String) (k : List Nat),
       (set_session_key c peer k).one_time_pre_keys = c.one_time_pre_keys ∧
       ((get_encryption_key c peer).2).one_time_pre_keys = c.one_time_pre_keys ∧
       (destroy_session_key c peer).one_time_pre_keys = c.one_time_pre_keys) ∧
     (∀ (c : InMemoryClient) (sender : String) (sik ek : Nat) (otk : Option Nat)
         (ct : Ciphertext), alookup c.one_time_pre_keys 5 = none →
       alookup ((x3dh_initiate_recv c sender sik ek otk ct).2).one_time_pre_keys 5
         = none)) :=
  ⟨by decide, c2_otk_consumed_at_most_once [(5, 7)] 5 7 (by decide)⟩

/-! ### Decrypt-failure cleanup -/

/-- When the receiver's key derivation succeeded but AEAD decryption fails,
the only error is `DecryptFailed`, the session key for the sender is absent
from the post state, and the OTK map of the post state is exactly the wiped
map produced by the derivation (the wipe is not rolled back). -/
theorem recv_decrypt_fail (c : InMemoryClient) (sender : String) (sik ek : Nat)
    (otk : Option Nat) (ct : Ciphertext) (sk' : List Nat) (m1 : List (Nat × Nat))
    (e : String)
    (hsk : x3dh_initiate_recv_sk c.one_time_pre_keys sik ek otk
      c.identity_key c.pre_key = (.ok sk', m1))
    (herr : (x3dh_initiate_recv c sender sik ek otk ct).1 = .error e) :
    e = "DecryptFailed" ∧
    alookup ((x3dh_initiate_recv c sender sik ek otk ct).2).session_keys sender
      = none ∧
    ((x3dh_initiate_recv c sender sik ek otk ct).2).one_time_pre_keys = m1 := by
  unfold x3dh_initiate_recv at herr ⊢
  rw [hsk] at herr ⊢
  simp only [decrypt_data] at herr ⊢
  by_cases hcond : (ct.key = sk' ∧
      ct.aad = toBytes32 sik ++ toBytes32 c.identity_key)
  · simp [hcond] at herr
  · simp only [if_neg hcond] at herr ⊢
    refine ⟨by simpa using herr.symm, ?_, rfl⟩
    simp [destroy_session_key, set_session_key, alookup_aremove_self]

/-- C5.  On AEAD decryption failure in `x3dh_initiate_recv` (with a one-time
key that the client holds, so the derivation itself succeeds), the receive
fails with `DecryptFailed`, the stored session key for the sender is deleted,
and the one-time-key wipe performed earlier in the same receive is not rolled
back: the OTK secret stays removed. -/
theorem c5_decrypt_failure_cleanup (c : InMemoryClient) (sender : String)
    (sik ek opk sec : Nat) (ct : Ciphertext) (e : String)
    (hotk : alookup c.one_time_pre_keys opk = some sec)
    (herr : (x3dh_initiate_recv c sender sik ek (some opk) ct).1 = .error e) :
    e = "DecryptFailed" ∧
    alookup ((x3dh_initiate_recv c sender sik ek (some opk) ct).2).session_keys
      sender = none ∧
    alookup ((x3dh_initiate_recv c sender sik ek (some opk) ct).2).one_time_pre_keys
      opk = none := by
  have hsk : x3dh_initiate_recv_sk c.one_time_pre_keys sik ek (some opk)
      c.identity_key c.pre_key =
      (.ok (kdf (toBytes32 (diffie_hellman c.pre_key (to_montgomery sik)) ++
                 toBytes32 (diffie_hellman c.identity_key ek) ++
                 toBytes32 (diffie_hellman c.pre_key ek) ++
                 toBytes32 (diffie_hellman sec ek))),
       aremove c.one_time_pre_keys opk) := by
    simp [x3dh_initiate_recv_sk, fetch_wipe_one_time_secret_key, hotk]
  obtain ⟨he, hsess, hmap⟩ := recv_decrypt_fail c sender sik ek (some opk) ct _ _ e hsk herr
  exact ⟨he, hsess, by rw [hmap]; exact alookup_aremove_self _ _⟩

/-- Witness for C5: the demo receiver state with a junk ciphertext. -/
theorem c5_decrypt_failure_cleanup_witness :
    alookup bobClient.one_time_pre_keys (xpub bobOtkSec) = some bobOtkSec ∧
    (x3dh_initiate_recv bobClient "Alice" (verifying_key aliceSk) (xpub ephSec)
      (some (xpub bobOtkSec)) ⟨[9], [9], [9]⟩).1 = .error "DecryptFailed" ∧
    ("DecryptFailed" : String) = "DecryptFailed" ∧
    alookup ((x3dh_initiate_recv bobClient "Alice" (verifying_key aliceSk)
      (xpub ephSec) (some (xpub bobOtkSec)) ⟨[9], [9], [9]⟩).2).session_keys
      "Alice" = none ∧
    alookup ((x3dh_initiate_recv bobClient "Alice" (verifying_key aliceSk)
      (xpub ephSec) (some (xpub bobOtkSec)) ⟨[9], [9], [9]⟩).2).one_time_pre_keys
      (xpub bobOtkSec) = none := by
  refine ⟨by decide, rfl, ?_⟩
  have := c5_decrypt_failure_cleanup bobClient "Alice" (verifying_key aliceSk)
    (xpub ephSec) (xpub bobOtkSec) bobOtkSec ⟨[9], [9], [9]⟩ "DecryptFailed"
    (by decide) rfl
  exact this

/-! ### C7 — `send_message` and unknown users -/

def c7Message : Message := ⟨1, 2, none, ⟨[], [], []⟩⟩

/-- C7 counterexample.  `InMemoryServer::send_message` does NOT fail for an
unregistered recipient: sending to "Carol" on the empty directory succeeds
and inserts the message into a freshly created queue, where the claim
requires an `UnknownUser` failure with no insert. -/
theorem c7_counterexample_send_message_unknown_user_succeeds :
    (send_message InMemoryServer.empty "Carol" c7Message).1 = .ok () ∧
    alookup (send_message InMemoryServer.empty "Carol" c7Message).2.messages
      "Carol" = some [c7Message] :=
  ⟨rfl, rfl⟩

/-- C7 amended.  The SQLite directory behaves as claimed: `add_message` for
an absent recipient fails with the `UnknownUser` error ("user not found")
and leaves the storage unchanged; the in-memory `send_message`, by contrast,
always succeeds and unconditionally appends to the recipient's queue. -/
theorem c7_amended_unknown_user (st : SqliteStorage) (r : String) (m now : Nat)
    (h : st.user.any (fun row => row.identity == r) = false) :
    add_message st r m now = (.error "user not found", st) ∧
    (∀ (s : InMemoryServer) (rec : String) (msg : Message),
      (send_message s rec msg).1 = .ok () ∧
      alookup (send_message s rec msg).2.messages rec
        = some ((alookup s.messages rec).getD [] ++ [msg])) := by
  refine ⟨by simp [add_message, h], fun s rec msg => ⟨rfl, ?_⟩⟩
  simp [send_message, alookup_ainsert_self]

/-- Witness for C7 amended: the empty SQLite storage and recipient "Carol". -/
theorem c7_amended_unknown_user_witness :
    (SqliteStorage.mk [] [] []).user.any (fun row => row.identity == "Carol")
      = false ∧
    (add_message ⟨[], [], []⟩ "Carol" 1 0 = (.error "user not found", ⟨[], [], []⟩) ∧
     (∀ (s : InMemoryServer) (rec : String) (msg : Message),
       (send_message s rec msg).1 = .ok () ∧
       alookup (send_message s rec msg).2.messages rec
         = some ((alookup s.messages rec).getD [] ++ [msg]))) :=
  ⟨by decide, c7_amended_unknown_user ⟨[], [], []⟩ "Carol" 1 0 (by decide)⟩

/-! ### C8 — identity-key immutability -/

def c8Ik1 : Nat := verifying_key 3
def c8Ik2 : Nat := verifying_key 4
def c8Spk1 : SignedPreKey := ⟨xpub 5, sign_bundle 3 [xpub 5]⟩
def c8Spk2 : SignedPreKey := ⟨xpub 6, sign_bundle 4 [xpub 6]⟩

def c8S1 : InMemoryServer :=
  (set_spk InMemoryServer.empty "Bob" c8Ik1 c8Spk1).2

/-- C8 counterexample.  `InMemoryServer::set_spk` silently OVERWRITES the
stored identity key: after Bob registers with `c8Ik1`, a second registration
with a different key `c8Ik2` succeeds and replaces the stored key, where the
claim requires the identity key to be immutable once set. -/
theorem c8_counterexample_set_spk_overwrites_identity_key :
    alookup c8S1.identity_key "Bob" = some c8Ik1 ∧
    (set_spk c8S1 "Bob" c8Ik2 c8Spk2).1 = .ok () ∧
    alookup (set_spk c8S1 "Bob" c8Ik2 c8Spk2).2.identity_key "Bob" = some c8Ik2 ∧
    c8Ik1 ≠ c8Ik2 :=
  ⟨rfl, rfl, rfl, by decide⟩

/-- C8 amended.  The SQLite directory keeps the identity key immutable:
`add_user` on an identity that already has a stored key is a no-op (the
duplicate-key INSERT error is swallowed), so the stored identity key never
changes; the in-memory `set_spk`, by contrast, silently overwrites it. -/
theorem c8_amended_sqlite_identity_key_immutable (st : SqliteStorage)
    (id : String) (ik : Nat) (spk : SignedPreKey) (now k : Nat)
    (h : get_user_key st id = some k) :
    add_user st id ik spk now = st ∧
    get_user_key (add_user st id ik spk now) id = some k := by
  have hex : st.user.any (fun r => r.identity == id) = true := by
    unfold get_user_key at h
    cases hf : st.user.find? (fun r => r.identity == id) with
    | none => rw [hf] at h; exact absurd h (by simp)
    | some row =>
      have hmem := List.mem_of_find?_eq_some hf
      have hp := List.find?_some hf
      exact List.any_eq_true.2 ⟨row, hmem, hp⟩
  constructor
  · simp [add_user, hex]
  · simp [add_user, hex, h]

/-- Witness for C8 amended: a one-user SQLite storage, re-registered with a
different identity key. -/
theorem c8_amended_sqlite_identity_key_immutable_witness :
    get_user_key ⟨[⟨"Bob", 92, c8Spk1, 0⟩], [], []⟩ "Bob" = some 92 ∧
    (add_user ⟨[⟨"Bob", 92, c8Spk1, 0⟩], [], []⟩ "Bob" 142 c8Spk2 1
       = ⟨[⟨"Bob", 92, c8Spk1, 0⟩], [], []⟩ ∧
     get_user_key (add_user ⟨[⟨"Bob", 92, c8Spk1, 0⟩], [], []⟩ "Bob" 142 c8Spk2 1)
       "Bob" = some 92) :=
  ⟨by decide, c8_amended_sqlite_identity_key_immutable
    ⟨[⟨"Bob", 92, c8Spk1, 0⟩], [], []⟩ "Bob" 142 c8Spk2 1 92 (by decide)⟩

/-! ### C9 — message-queue drain -/

/-- Iterated `send_message` of a list of messages to one recipient. -/
def sendAll (u : String) : List Message → InMemoryServer → InMemoryServer
  | [], s => s
  | m :: ms, s => sendAll u ms (send_message s u m).2

theorem sendAll_queue (u : String) (ms : List Message) (s : InMemoryServer) :
    (alookup (sendAll u ms s).messages u).getD []
      = (alookup s.messages u).getD [] ++ ms := by
  induction ms generalizing s with
  | nil => simp [sendAll]
  | cons m rest ih =>
    rw [sendAll, ih]
    simp [send_message, alookup_ainsert_self]

/-- C9.  Queue drain.  In-memory: after any number of messages are sent to
`u` on top of any prior state, `retrieve_messages u` returns the prior queue
followed by all of them, and an immediately repeated `retrieve_messages u`
returns the empty list.  SQLite: `get_messages u` returns every queued
message row of `u` (in insertion order) and deletes them, so an immediately
repeated `get_messages u` returns the empty list. -/
theorem c9_retrieve_messages_drains :
    (∀ (s : InMemoryServer) (u : String) (ms : List Message),
      (retrieve_messages (sendAll u ms s) u).1
        = (alookup s.messages u).getD [] ++ ms ∧
      (retrieve_messages (retrieve_messages (sendAll u ms s) u).2 u).1 = []) ∧
    (∀ (st : SqliteStorage) (u : String),
      (get_messages st u).1
        = (st.message.filter (fun r => r.user_identity == u)).map
            MessageRow.message ∧
      (get_messages (get_messages st u).2 u).1 = []) := by
  constructor
  · intro s u ms
    refine ⟨by rw [retrieve_messages]; exact sendAll_queue u ms s, ?_⟩
    simp [retrieve_messages, alookup_aremove_self]
  · intro st u
    refine ⟨rfl, ?_⟩
    simp only [get_messages, List.filter_filter]
    rw [List.filter_congr (q := fun _ => false) ?_]
    · simp
    · intro r _
      cases r.user_identity == u <;> rfl

/-! ### C6 — one-time-key pool order -/

theorem minByTime_mem (l : List PreKeyRow) (r : PreKeyRow)
    (h : minByTime l = some r) : r ∈ l := by
  induction l generalizing r with
  | nil => cases h
  | cons a rs ih =>
    rw [minByTime] at h
    cases hm : minByTime rs with
    | none =>
      simp only [hm] at h
      cases h
      exact List.mem_cons_self a rs
    | some m =>
      simp only [hm] at h
      by_cases hle : a.creation_time ≤ m.creation_time
      · rw [if_pos hle] at h
        cases h
        exact List.mem_cons_self a rs
      · rw [if_neg hle] at h
        injection h with h2
        exact List.mem_cons_of_mem a (ih r (h2 ▸ hm))

theorem minByTime_head (r : PreKeyRow) (rest : List PreKeyRow)
    (h : ∀ x ∈ rest, r.creation_time < x.creation_time) :
    minByTime (r :: rest) = some r := by
  rw [minByTime]
  cases hm : minByTime rest with
  | none => simp only [hm]
  | some m =>
    simp only [hm]
    rw [if_pos (Nat.le_of_lt (h m (minByTime_mem rest m hm)))]

theorem filter_comm_aux (l : List PreKeyRow) (p q : PreKeyRow → Bool) :
    (l.filter p).filter q = (l.filter q).filter p := by
  induction l with
  | nil => rfl
  | cons a t ih => cases hp : p a <;> cases hq : q a <;> simp [hp, hq, ih]

/-- Theorem: `pop_one_time_key` is FIFO: if the user's pre-key rows have strictly
increasing creation times in table order (and the table keys are unique, as
the PRIMARY KEY guarantees), `n` consecutive pops return exactly the user's
keys in table order and leave the user's pool empty. -/
theorem popN_fifo (n : Nat) : ∀ (s : SqliteStorage) (u : String),
    (userRows s u).length = n →
    List.Pairwise (fun a b => a.creation_time < b.creation_time) (userRows s u) →
    (s.pre_key.map PreKeyRow.key).Nodup →
    (popN u n s).1 = (userRows s u).map PreKeyRow.key ∧
    userRows (popN u n s).2 u = [] := by
  induction n with
  | zero =>
    intro s u hlen _ _
    have h0 : userRows s u = [] := List.length_eq_zero.mp hlen
    rw [popN]
    simp [h0]
  | succ n ih =>
    intro s u hlen hpw hnd
    cases hur : userRows s u with
    | nil => rw [hur] at hlen; simp at hlen
    | cons r rest =>
      rw [hur] at hpw
      have hhead : ∀ x ∈ rest, r.creation_time < x.creation_time :=
        (List.pairwise_cons.mp hpw).1
      have hmin : minByTime (userRows s u) = some r := by
        rw [hur]; exact minByTime_head r rest hhead
      have hpop : pop_one_time_key s u =
          (some r.key,
           { s with pre_key := s.pre_key.filter (fun q => q.key != r.key) }) := by
        rw [pop_one_time_key, hmin]
      -- keys of the user's rows are distinct
      have hsub : List.Sublist ((userRows s u).map PreKeyRow.key)
          (s.pre_key.map PreKeyRow.key) :=
        (List.filter_sublist s.pre_key).map PreKeyRow.key
      have hndu : ((r :: rest).map PreKeyRow.key).Nodup := by
        rw [← hur]; exact hnd.sublist hsub
      have hrestkeys : ∀ q ∈ rest, (q.key != r.key) = true := by
        have hni : PreKeyRow.key r ∉ rest.map PreKeyRow.key := by
          have h' := hndu
          rw [List.map_cons] at h'
          exact (List.nodup_cons.mp h').1
        intro q hq
        have hne : q.key ≠ r.key := by
          intro hk
          exact hni (hk ▸ List.mem_map_of_mem PreKeyRow.key hq)
        simpa using hne
      have hrows1 : userRows
          { s with pre_key := s.pre_key.filter (fun q => q.key != r.key) } u
            = rest := by
        show (s.pre_key.filter (fun q => q.key != r.key)).filter
          (fun q => q.user_identity == u) = rest
        rw [filter_comm_aux]
        have : s.pre_key.filter (fun q => q.user_identity == u) = r :: rest := hur
        rw [this, List.filter_cons]
        have hr : (r.key != r.key) = false := by simp
        rw [hr]
        simp only [Bool.false_eq_true, if_false]
        exact List.filter_eq_self.mpr hrestkeys
      have hnd1 : (({ s with
          pre_key := s.pre_key.filter (fun q => q.key != r.key) } :
            SqliteStorage).pre_key.map PreKeyRow.key).Nodup :=
        hnd.sublist ((List.filter_sublist s.pre_key).map PreKeyRow.key)
      have hlen1 : (userRows
          { s with pre_key := s.pre_key.filter (fun q => q.key != r.key) } u).length
            = n := by
        rw [hrows1]
        have : (r :: rest).length = n + 1 := by rw [← hur]; exact hlen
        simpa using this
      have hpw1 : List.Pairwise (fun a b => a.creation_time < b.creation_time)
          (userRows { s with
            pre_key := s.pre_key.filter (fun q => q.key != r.key) } u) := by
        rw [hrows1]; exact (List.pairwise_cons.mp hpw).2
      obtain ⟨ih1, ih2⟩ := ih _ u hlen1 hpw1 hnd1
      constructor
      · rw [popN]
        simp only [hpop]
        rw [ih1, hrows1]
        simp [hur]
      · rw [popN]
        simp only [hpop]
        exact ih2

def c6Otk1 : Nat := xpub 11
def c6Otk2 : Nat := xpub 13

/-- Bob's directory entry after publishing the two one-time keys
`[c6Otk1, c6Otk2]` in that order. -/
def c6Server : InMemoryServer :=
  (publish_otk_bundle
    (set_spk InMemoryServer.empty "Bob" (verifying_key bobSk) bobSpk).2
    "Bob" (verifying_key bobSk)
    ⟨[c6Otk1, c6Otk2], sign_bundle bobSk [c6Otk1, c6Otk2]⟩).2

/-- C6 counterexample.  `InMemoryServer::fetch_prekey_bundle` is NOT FIFO:
with the pool `[c6Otk1, c6Otk2]` added in that order, the first fetch
returns `c6Otk2` — the most recently added key (`Vec::pop` takes from the
back) — not `c6Otk1` as the claim requires. -/
theorem c6_counterexample_fetch_prekey_bundle_lifo :
    (fetch_prekey_bundle c6Server "Bob").1
      = .ok ⟨verifying_key bobSk, some c6Otk2, bobSpk⟩ ∧
    alookup (fetch_prekey_bundle c6Server "Bob").2.one_time_pre_keys "Bob"
      = some [c6Otk1] ∧
    c6Otk2 ≠ c6Otk1 :=
  ⟨rfl, rfl, by decide⟩

/-- C6 amended.  The SQLite directory is FIFO as claimed: if the pre-key
rows of user `u` carry strictly increasing `creation_time` in table order
(and table keys are unique, as the PRIMARY KEY enforces), then consecutive
`pop_one_time_key` calls return exactly those keys in ascending
`created_at` order, each removed from the pool as it is returned, draining
the pool.  The in-memory `fetch_prekey_bundle`, by contrast, always serves
the LAST key of the pool (LIFO). -/
theorem c6_amended_fifo (s : SqliteStorage) (u : String)
    (h1 : List.Pairwise (fun a b => a.creation_time < b.creation_time)
      (userRows s u))
    (h2 : (s.pre_key.map PreKeyRow.key).Nodup) :
    ((popN u (userRows s u).length s).1 = (userRows s u).map PreKeyRow.key ∧
     userRows (popN u (userRows s u).length s).2 u = []) ∧
    (∀ (sv : InMemoryServer) (v : String) (ik : Nat) (spk : SignedPreKey)
        (otks : List Nat),
      alookup sv.identity_key v = some ik →
      alookup sv.current_pre_key v = some spk →
      alookup sv.one_time_pre_keys v = some otks →
      (fetch_prekey_bundle sv v).1 = .ok ⟨ik, otks.getLast?, spk⟩) := by
  refine ⟨popN_fifo (userRows s u).length s u rfl h1 h2, ?_⟩
  intro sv v ik spk otks hik hspk hotks
  simp [fetch_prekey_bundle, hik, hspk, hotks]

/-- Witness for C6 amended: a three-row pre-key table with creation times
1 < 2 < 3 pops the keys 10, 20, 30 in insertion order. -/
theorem c6_amended_fifo_witness :
    List.Pairwise (fun a b => a.creation_time < b.creation_time)
      (userRows ⟨[], [⟨10, "bob", 1⟩, ⟨20, "bob", 2⟩, ⟨30, "bob", 3⟩], []⟩ "bob") ∧
    (((SqliteStorage.mk [] [⟨10, "bob", 1⟩, ⟨20, "bob", 2⟩, ⟨30, "bob", 3⟩]
        []).pre_key.map PreKeyRow.key).Nodup) ∧
    ((popN "bob"
        (userRows ⟨[], [⟨10, "bob", 1⟩, ⟨20, "bob", 2⟩, ⟨30, "bob", 3⟩], []⟩
          "bob").length
        ⟨[], [⟨10, "bob", 1⟩, ⟨20, "bob", 2⟩, ⟨30, "bob", 3⟩], []⟩).1
       = (userRows ⟨[], [⟨10, "bob", 1⟩, ⟨20, "bob", 2⟩, ⟨30, "bob", 3⟩], []⟩
           "bob").map PreKeyRow.key ∧
     userRows (popN "bob"
        (userRows ⟨[], [⟨10, "bob", 1⟩, ⟨20, "bob", 2⟩, ⟨30, "bob", 3⟩], []⟩
          "bob").length
        ⟨[], [⟨10, "bob", 1⟩, ⟨20, "bob", 2⟩, ⟨30, "bob", 3⟩], []⟩).2 "bob" = []) ∧
    (∀ (sv : InMemoryServer) (v : String) (ik : Nat) (spk : SignedPreKey)
        (otks : List Nat),
      alookup sv.identity_key v = some ik →
      alookup sv.current_pre_key v = some spk →
      alookup sv.one_time_pre_keys v = some otks →
      (fetch_prekey_bundle sv v).1 = .ok ⟨ik, otks.getLast?, spk⟩) := by
  refine ⟨by decide, by decide, ?_⟩
  exact c6_amended_fifo ⟨[], [⟨10, "bob", 1⟩, ⟨20, "bob", 2⟩, ⟨30, "bob", 3⟩], []⟩
    "bob" (by decide) (by decide)

/-! ### C10 — the encryption-key ratchet asymmetry -/

/-- C10.  For a peer with stored 32-byte session key `K`,
`get_encryption_key` returns the cipher keyed by bytes 32..64 of
`Blake2b512(K)` and replaces the stored key with bytes 0..32 of
`Blake2b512(K)`.  Consequently `x3dh_initiate_send` emits a ciphertext
encrypted under bytes 32..64 of `Blake2b512(SK)` (where `SK` is the secret
it just recorded) and leaves bytes 0..32 recorded, while
`x3dh_initiate_recv` decrypts with the derived `SK` itself: a successful
receive means the ciphertext's key equals the session key it records. -/
theorem c10_encryption_key_ratchet (c : InMemoryClient) (peer : String)
    (K : List Nat) (h : alookup c.session_keys peer = some K) :
    (get_encryption_key c peer).1 = .ok ((blake2b512 K).drop 32) ∧
    alookup ((get_encryption_key c peer).2).session_keys peer
      = some ((blake2b512 K).take 32) ∧
    (∀ (server : InMemoryServer) (client : InMemoryClient) (recipient : String)
        (sender_key : Nat) (msgP : List Nat) (eph : Nat) (bundle : PreKeyBundle)
        (sv : InMemoryServer) (r : X3DHInitiateSendSkResult),
      fetch_prekey_bundle server recipient = (.ok bundle, sv) →
      x3dh_initiate_send_sk bundle.identity_key bundle.spk bundle.otk
        sender_key eph = .ok r →
      (x3dh_initiate_send server client recipient sender_key msgP eph).1
        = .ok ⟨bundle.identity_key, r.ephemeral_key, bundle.otk,
            encrypt_data msgP
              (toBytes32 (verifying_key sender_key) ++ toBytes32 bundle.identity_key)
              ((blake2b512 r.secret_key).drop 32)⟩ ∧
      alookup ((x3dh_initiate_send server client recipient sender_key
          msgP eph).2.2).session_keys recipient
        = some ((blake2b512 r.secret_key).take 32)) ∧
    (∀ (c2 : InMemoryClient) (sender : String) (sik ek : Nat) (otk : Option Nat)
        (ct : Ciphertext) (msg : List Nat),
      (x3dh_initiate_recv c2 sender sik ek otk ct).1 = .ok msg →
      alookup ((x3dh_initiate_recv c2 sender sik ek otk ct).2).session_keys sender
        = some ct.key) := by
  refine ⟨by simp [get_encryption_key, h],
    by simp [get_encryption_key, h, alookup_ainsert_self], ?_, ?_⟩
  · intro server client recipient sender_key msgP eph bundle sv r hfetch hsk
    unfold x3dh_initiate_send
    rw [hfetch]
    simp only [hsk]
    constructor
    · simp [set_session_key, get_encryption_key, alookup_ainsert_self]
    · simp [set_session_key, get_encryption_key, alookup_ainsert_self]
  · intro c2 sender sik ek otk ct msg hok
    unfold x3dh_initiate_recv at hok ⊢
    rcases hres : x3dh_initiate_recv_sk c2.one_time_pre_keys sik ek otk
        c2.identity_key c2.pre_key with ⟨rr, m1⟩
    rw [hres] at hok
    cases rr with
    | error e => simp at hok
    | ok sk' =>
      simp only [decrypt_data] at hok ⊢
      by_cases hcond : (ct.key = sk' ∧
          ct.aad = toBytes32 sik ++ toBytes32 c2.identity_key)
      · simp only [if_pos hcond]
        simp [set_session_key, alookup_ainsert_self, hcond.1]
      · simp [if_neg hcond] at hok

/-- Witness for C10 at the all-zero 32-byte session key; additionally the
encryption key derived from it differs from the stored key itself. -/
theorem c10_encryption_key_ratchet_witness :
    alookup [("Bob", List.replicate 32 0)] "Bob" = some (List.replicate 32 0) ∧
    (blake2b512 (List.replicate 32 0)).drop 32 ≠ List.replicate 32 0 ∧
    ((get_encryption_key ⟨1, 2, [], [("Bob", List.replicate 32 0)]⟩ "Bob").1
       = .ok ((blake2b512 (List.replicate 32 0)).drop 32) ∧
     alookup ((get_encryption_key ⟨1, 2, [], [("Bob", List.replicate 32 0)]⟩
         "Bob").2).session_keys "Bob"
       = some ((blake2b512 (List.replicate 32 0)).take 32) ∧
     (∀ (server : InMemoryServer) (client : InMemoryClient) (recipient : String)
         (sender_key : Nat) (msgP : List Nat) (eph : Nat) (bundle : PreKeyBundle)
         (sv : InMemoryServer) (r : X3DHInitiateSendSkResult),
       fetch_prekey_bundle server recipient = (.ok bundle, sv) →
       x3dh_initiate_send_sk bundle.identity_key bundle.spk bundle.otk
         sender_key eph = .ok r →
       (x3dh_initiate_send server client recipient sender_key msgP eph).1
         = .ok ⟨bundle.identity_key, r.ephemeral_key, bundle.otk,
             encrypt_data msgP
               (toBytes32 (verifying_key sender_key) ++
                toBytes32 bundle.identity_key)
               ((blake2b512 r.secret_key).drop 32)⟩ ∧
       alookup ((x3dh_initiate_send server client recipient sender_key
           msgP eph).2.2).session_keys recipient
         = some ((blake2b512 r.secret_key).take 32)) ∧
     (∀ (c2 : InMemoryClient) (sender : String) (sik ek : Nat) (otk : Option Nat)
         (ct : Ciphertext) (msg : List Nat),
       (x3dh_initiate_recv c2 sender sik ek otk ct).1 = .ok msg →
       alookup ((x3dh_initiate_recv c2 sender sik ek otk ct).2).session_keys
         sender = some ct.key)) :=
  ⟨by decide, by decide,
   c10_encryption_key_ratchet ⟨1, 2, [], [("Bob", List.replicate 32 0)]⟩ "Bob"
     (List.replicate 32 0) (by decide)⟩

end Brongnal
